import Mathlib

/-!
Verification of the gomlx/tokenizers Rust boundary layer (src/rs/src/lib.rs,
encode.rs, decode.rs, configure.rs).

The development is a shallow embedding of the C-ABI boundary functions.  The
external Tokenizer Engine (the `tokenizers` crate) is treated as a black box:
it appears as a record of abstract functions and configuration state, exactly
the interface the specification lists as out of scope.  Machine integers are
modelled as `Nat` with explicit `% 2^32` at every `as u32` cast; C strings are
modelled as lists of byte values (no interior 0 by construction of `CStr`);
nullable pointers are `Option`; a Rust `panic` (from `unwrap`, `expect` or an
explicit panic call) is the `panicked` constructor of `POr`, distinguished
from values returned through the error channel.

Heap blocks that cross the boundary (every `Vec` storage that is
`mem::forget`-ten and every `CString` turned into a raw pointer) are tracked
by an explicit allocation state `Alloc`: `allocBlock` hands out block ids,
`freeBlock` retires them, and a block that is live in the final state of a
failed call without any owner in the returned value is a leak.
-/

namespace Tokenizers

/-- Result of a Rust computation that can panic: either `panicked msg`
(the process aborts) or a normally returned value. -/
inductive POr (α : Type) where
  | panicked (msg : String)
  | ok (val : α)
deriving DecidableEq

/-- Allocation state for heap blocks whose ownership crosses the boundary:
`next` is the next fresh block id, `live` the ids currently allocated. -/
structure Alloc where
  next : Nat
  live : List Nat
deriving DecidableEq

/-- Initial allocation state: nothing allocated. -/
def Alloc.empty : Alloc := { next := 0, live := [] }

/-- Allocate a fresh heap block, returning its id and the new state. -/
def allocBlock (a : Alloc) : Nat × Alloc :=
  (a.next, { next := a.next + 1, live := a.next :: a.live })

/-- Release the heap block with id `i`. -/
def freeBlock (a : Alloc) (i : Nat) : Alloc :=
  { next := a.next, live := a.live.erase i }

/-- A Rust `Vec` of `n` elements allocates heap storage only when `n > 0`
(a zero-capacity `Vec` holds a dangling, non-null pointer). -/
def allocIfPos (a : Alloc) (n : Nat) : Option Nat × Alloc :=
  if n = 0 then (none, a) else (some (allocBlock a).1, (allocBlock a).2)

/-- Release an optional heap block (no-op on `none`). -/
def freeOpt (a : Alloc) (i : Option Nat) : Alloc :=
  match i with
  | none => a
  | some j => freeBlock a j

/-! UTF-8 decoding, as performed by `CStr::to_str` (strict) and
`CStr::to_string_lossy` (invalid sequences replaced by U+FFFD, one
replacement character per maximal subpart of an ill-formed sequence).
The byte classification is the standard UTF-8 well-formedness table. -/

/-- Decode one UTF-8 scalar value from byte `b` followed by `rest`.
Returns the scalar and the total number of bytes consumed, or `none`
when no well-formed sequence starts here. -/
def utf8DecodeCore (b : Nat) (rest : List Nat) : Option (Nat × Nat) :=
  if b ≤ 0x7F then some (b, 1)
  else if 0xC2 ≤ b ∧ b ≤ 0xDF then
    match rest with
    | b1 :: _ =>
      if 0x80 ≤ b1 ∧ b1 ≤ 0xBF then some ((b - 0xC0) * 64 + (b1 - 0x80), 2) else none
    | [] => none
  else if b = 0xE0 then
    match rest with
    | b1 :: b2 :: _ =>
      if (0xA0 ≤ b1 ∧ b1 ≤ 0xBF) ∧ (0x80 ≤ b2 ∧ b2 ≤ 0xBF) then
        some ((b - 0xE0) * 4096 + (b1 - 0x80) * 64 + (b2 - 0x80), 3)
      else none
    | _ => none
  else if (0xE1 ≤ b ∧ b ≤ 0xEC) ∨ b = 0xEE ∨ b = 0xEF then
    match rest with
    | b1 :: b2 :: _ =>
      if (0x80 ≤ b1 ∧ b1 ≤ 0xBF) ∧ (0x80 ≤ b2 ∧ b2 ≤ 0xBF) then
        some ((b - 0xE0) * 4096 + (b1 - 0x80) * 64 + (b2 - 0x80), 3)
      else none
    | _ => none
  else if b = 0xED then
    match rest with
    | b1 :: b2 :: _ =>
      if (0x80 ≤ b1 ∧ b1 ≤ 0x9F) ∧ (0x80 ≤ b2 ∧ b2 ≤ 0xBF) then
        some ((b - 0xE0) * 4096 + (b1 - 0x80) * 64 + (b2 - 0x80), 3)
      else none
    | _ => none
  else if b = 0xF0 then
    match rest with
    | b1 :: b2 :: b3 :: _ =>
      if (0x90 ≤ b1 ∧ b1 ≤ 0xBF) ∧ (0x80 ≤ b2 ∧ b2 ≤ 0xBF) ∧ (0x80 ≤ b3 ∧ b3 ≤ 0xBF) then
        some ((b - 0xF0) * 262144 + (b1 - 0x80) * 4096 + (b2 - 0x80) * 64 + (b3 - 0x80), 4)
      else none
    | _ => none
  else if 0xF1 ≤ b ∧ b ≤ 0xF3 then
    match rest with
    | b1 :: b2 :: b3 :: _ =>
      if (0x80 ≤ b1 ∧ b1 ≤ 0xBF) ∧ (0x80 ≤ b2 ∧ b2 ≤ 0xBF) ∧ (0x80 ≤ b3 ∧ b3 ≤ 0xBF) then
        some ((b - 0xF0) * 262144 + (b1 - 0x80) * 4096 + (b2 - 0x80) * 64 + (b3 - 0x80), 4)
      else none
    | _ => none
  else if b = 0xF4 then
    match rest with
    | b1 :: b2 :: b3 :: _ =>
      if (0x80 ≤ b1 ∧ b1 ≤ 0x8F) ∧ (0x80 ≤ b2 ∧ b2 ≤ 0xBF) ∧ (0x80 ≤ b3 ∧ b3 ≤ 0xBF) then
        some ((b - 0xF0) * 262144 + (b1 - 0x80) * 4096 + (b2 - 0x80) * 64 + (b3 - 0x80), 4)
      else none
    | _ => none
  else none

/-- Length of the maximal subpart of an ill-formed sequence starting at byte
`b` (always at least 1): the bytes consumed for one U+FFFD replacement in
lossy decoding, per the substitution-of-maximal-subparts policy used by
`String::from_utf8_lossy`. -/
def utf8InvalidLen (b : Nat) (rest : List Nat) : Nat :=
  if 0xC2 ≤ b ∧ b ≤ 0xDF then 1
  else if b = 0xE0 then
    match rest with
    | b1 :: _ => if 0xA0 ≤ b1 ∧ b1 ≤ 0xBF then 2 else 1
    | [] => 1
  else if (0xE1 ≤ b ∧ b ≤ 0xEC) ∨ b = 0xEE ∨ b = 0xEF then
    match rest with
    | b1 :: _ => if 0x80 ≤ b1 ∧ b1 ≤ 0xBF then 2 else 1
    | [] => 1
  else if b = 0xED then
    match rest with
    | b1 :: _ => if 0x80 ≤ b1 ∧ b1 ≤ 0x9F then 2 else 1
    | [] => 1
  else if b = 0xF0 then
    match rest with
    | b1 :: b2 :: _ =>
      if 0x90 ≤ b1 ∧ b1 ≤ 0xBF then (if 0x80 ≤ b2 ∧ b2 ≤ 0xBF then 3 else 2) else 1
    | [b1] => if 0x90 ≤ b1 ∧ b1 ≤ 0xBF then 2 else 1
    | [] => 1
  else if 0xF1 ≤ b ∧ b ≤ 0xF3 then
    match rest with
    | b1 :: b2 :: _ =>
      if 0x80 ≤ b1 ∧ b1 ≤ 0xBF then (if 0x80 ≤ b2 ∧ b2 ≤ 0xBF then 3 else 2) else 1
    | [b1] => if 0x80 ≤ b1 ∧ b1 ≤ 0xBF then 2 else 1
    | [] => 1
  else if b = 0xF4 then
    match rest with
    | b1 :: b2 :: _ =>
      if 0x80 ≤ b1 ∧ b1 ≤ 0x8F then (if 0x80 ≤ b2 ∧ b2 ≤ 0xBF then 3 else 2) else 1
    | [b1] => if 0x80 ≤ b1 ∧ b1 ≤ 0x8F then 2 else 1
    | [] => 1
  else 1

/-- Fuel-driven strict UTF-8 decoder; the fuel is an upper bound on the list
length, so `utf8Decode` below always supplies enough (each step consumes at
least one byte). -/
def utf8DecodeGo : Nat → List Nat → Option (List Nat)
  | _, [] => some []
  | 0, _ :: _ => none
  | fuel + 1, b :: rest =>
    match utf8DecodeCore b rest with
    | some (c, k) => (utf8DecodeGo fuel (List.drop (k - 1) rest)).map (fun cs => c :: cs)
    | none => none

/-- Strict UTF-8 decoding of a byte list into scalar values, as
`CStr::to_str`: `none` exactly when the bytes are not valid UTF-8. -/
def utf8Decode (l : List Nat) : Option (List Nat) :=
  utf8DecodeGo l.length l

/-- Fuel-driven lossy UTF-8 decoder. -/
def utf8LossyGo : Nat → List Nat → List Nat
  | _, [] => []
  | 0, _ :: _ => []
  | fuel + 1, b :: rest =>
    match utf8DecodeCore b rest with
    | some (c, k) => c :: utf8LossyGo fuel (List.drop (k - 1) rest)
    | none => 0xFFFD :: utf8LossyGo fuel (List.drop (utf8InvalidLen b rest - 1) rest)

/-- Lossy UTF-8 decoding as `CStr::to_string_lossy`: each maximal subpart of
an ill-formed sequence becomes one U+FFFD replacement character. -/
def utf8Lossy (l : List Nat) : List Nat :=
  utf8LossyGo l.length l

/-! Engine-side data model.  The Tokenizer Engine (the external `tokenizers`
crate) is the black-box collaborator of the specification; it is represented
by abstract operation fields plus the truncation/padding configuration that
the boundary layer reads back.  Texts are lists of Unicode scalar values,
engine-side strings (token texts, the pad token) are lists of UTF-8 bytes. -/

/-- Truncation direction of the engine (`TruncationDirection`). -/
inductive TruncationDirection where
  | left
  | right
deriving DecidableEq

/-- Truncation strategy of the engine (`TruncationStrategy`). -/
inductive TruncationStrategy where
  | longestFirst
  | onlyFirst
  | onlySecond
deriving DecidableEq

/-- Engine-native truncation parameters
(`tokenizers::tokenizer::TruncationParams`). -/
structure EngineTruncationParams where
  direction : TruncationDirection
  strategy : TruncationStrategy
  max_length : Nat
  stride : Nat
deriving DecidableEq

/-- Padding direction of the engine (`PaddingDirection`). -/
inductive PaddingDirection where
  | left
  | right
deriving DecidableEq

/-- Padding strategy of the engine (`PaddingStrategy`). -/
inductive PaddingStrategy where
  | batchLongest
  | fixed (n : Nat)
deriving DecidableEq

/-- Engine-native padding parameters
(`tokenizers::tokenizer::PaddingParams`); `pad_token` is the byte content of
the engine's `String`. -/
structure EnginePaddingParams where
  strategy : PaddingStrategy
  direction : PaddingDirection
  pad_to_multiple_of : Option Nat
  pad_id : Nat
  pad_type_id : Nat
  pad_token : List Nat
deriving DecidableEq

/-- One engine `Encoding`: parallel sequences of ids, type ids, masks,
token texts (UTF-8 bytes each) and offset pairs. -/
structure Encoding where
  ids : List Nat
  type_ids : List Nat
  special_tokens_mask : List Nat
  attention_mask : List Nat
  tokens : List (List Nat)
  offsets : List (Nat × Nat)
deriving DecidableEq

/-- The Tokenizer Engine instance behind a handle.  The encode, decode and
vocab-size behaviours are abstract functions (the engine is a black box);
`truncation` and `padding` are the configuration slots that
`with_truncation`, `with_padding`, `get_truncation` and `get_padding`
operate on.  `acceptTrunc`/`truncErr` abstract the engine's right to reject
a truncation parameter combination with an error message. -/
structure Tokenizer where
  encodeFn : List Nat → Bool → Except String Encoding
  encodeCharFn : List Nat → Bool → Except String Encoding
  encodeBatchFn : List (List Nat) → Bool → Except String (List Encoding)
  encodeBatchCharFn : List (List Nat) → Bool → Except String (List Encoding)
  decodeFn : List Nat → Bool → Except String (List Nat)
  vocabSizeFn : Bool → Nat
  acceptTrunc : EngineTruncationParams → Bool
  truncErr : String
  truncation : Option EngineTruncationParams
  padding : Option EnginePaddingParams

/-- Engine `with_truncation`: validates `Some` parameters (abstractly, via
`acceptTrunc`) and replaces the configuration atomically; clearing with
`None` always succeeds and erases the configuration. -/
def Tokenizer.withTruncation (t : Tokenizer) :
    Option EngineTruncationParams → Except String Tokenizer
  | none => .ok { t with truncation := none }
  | some p =>
    if t.acceptTrunc p then .ok { t with truncation := some p } else .error t.truncErr

/-- Engine `with_padding`: replaces the padding configuration; it has no
failure mode (its `Result` is ignored by the boundary layer). -/
def Tokenizer.withPadding (t : Tokenizer) (p : Option EnginePaddingParams) : Tokenizer :=
  { t with padding := p }

/-! Boundary-layer data model: the `repr(C)` records of the source. -/

/-- The boundary `PointerOrError` struct of lib.rs, for `from_bytes`: the
value is the heap block id of the boxed `Tokenizer` handle. -/
structure PointerOrError where
  value : Option Nat
  error : Option String
deriving DecidableEq

/-- The boundary `TruncationParams` record of configure.rs
(direction: u8, strategy: u8, max_length: u32, stride: u32). -/
structure TruncationParams where
  direction : Nat
  strategy : Nat
  max_length : Nat
  stride : Nat
deriving DecidableEq

/-- The boundary `PaddingParams` record of configure.rs; `pad_token` is a
nullable C string (byte list without interior 0). -/
structure PaddingParams where
  strategy : Nat
  direction : Nat
  pad_to_multiple_of : Nat
  pad_id : Nat
  pad_type_id : Nat
  pad_token : Option (List Nat)
deriving DecidableEq

/-- The `EncodeParams` options record of encode.rs. -/
structure EncodeParams where
  add_special_tokens : Bool
  return_tokens : Bool
  return_type_ids : Bool
  return_special_tokens_mask : Bool
  return_attention_mask : Bool
  return_offsets : Bool
  with_offsets_char_mode : Bool
deriving DecidableEq

/-- The `Buffer` result record of encode.rs: `ids` is always populated, each
optional field is `none` exactly when its pointer is the null absent marker
(a requested-but-empty field is a present empty sequence, as in the source,
where a zero-length `Vec` still yields a non-null dangling pointer). -/
structure Buffer where
  ids : List Nat
  type_ids : Option (List Nat)
  special_tokens_mask : Option (List Nat)
  attention_mask : Option (List Nat)
  tokens : Option (List (List Nat))
  offsets : Option (List (Nat × Nat))
  len : Nat
deriving DecidableEq

/-- The `EncodeResults` aggregate of encode.rs: `encoded` is `none` when the
buffer pointer is null. -/
structure EncodeResults where
  len : Nat
  encoded : Option (List Buffer)
  error : Option String
deriving DecidableEq

/-! Boundary functions, translated one-for-one from the Rust source.  A null
`*mut c_void` tokenizer pointer is `none`; a non-null pointer is `some` of
the engine instance it points at. -/

/-- Embedding of `convert_to_tokenizer_ref` (encode.rs): a null pointer
becomes the error string of the source, a valid pointer dereferences. -/
def convert_to_tokenizer_ref (tp : Option Tokenizer) : Except String Tokenizer :=
  match tp with
  | none => .error "tokenizer passed is null"
  | some t => .ok t

/-- Embedding of `from_bytes` (lib.rs): on engine load success the
`Tokenizer` is boxed into a fresh heap block whose id is the returned
handle; on failure an owned error message is returned and nothing is
allocated for the handle.  `loader` is the external
`Tokenizer::from_bytes` of the engine. -/
def from_bytes (loader : List Nat → Except String Tokenizer) (bytes : List Nat)
    (a : Alloc) : PointerOrError × Alloc :=
  match loader bytes with
  | .ok _ =>
    let blk := allocBlock a
    ({ value := some blk.1, error := none }, blk.2)
  | .error e => ({ value := none, error := some e }, a)

/-- Embedding of `free_tokenizer` (lib.rs).  The source returns early on a
null pointer; for a non-null pointer its body is the bare expression
statement `ptr.cast::<Tokenizer>();`, which computes a cast and discards
it — no `Box` is reconstructed and no deallocation happens, so the
allocation state is unchanged in both branches. -/
def free_tokenizer (ptr : Option Nat) (a : Alloc) : Alloc :=
  match ptr with
  | none => a
  | some _ => a

/-- Embedding of `free_string` (lib.rs): no-op on null, otherwise the
`CString` is reconstructed from the raw pointer and dropped. -/
def free_string (ptr : Option Nat) (a : Alloc) : Alloc :=
  match ptr with
  | none => a
  | some i => freeBlock a i

/-- Embedding of `decode` (decode.rs): a null handle hits
`expect("failed to cast tokenizer")`, an engine decode failure hits
`expect("failed to decode input")` — both are panics, not error-channel
returns; on success the decoded text is handed back as a fresh `CString`
(which would panic on an interior 0 byte in the decoded text). -/
def decode (tp : Option Tokenizer) (ids : List Nat) (skip_special_tokens : Bool) :
    POr (List Nat) :=
  match tp with
  | none => .panicked "failed to cast tokenizer"
  | some t =>
    match t.decodeFn ids skip_special_tokens with
    | .error _ => .panicked "failed to decode input"
    | .ok s => if 0 ∈ s then .panicked "nul byte found in provided data" else .ok s

/-- Embedding of `vocab_size` (lib.rs and configure.rs — the two copies have
identical bodies): panics on a null handle, otherwise returns
`get_vocab_size(true)` cast to u32.  The function takes no
include-added-tokens parameter; the flag is hardcoded to `true`. -/
def vocab_size (tp : Option Tokenizer) : POr Nat :=
  match tp with
  | none => .panicked "failed to cast tokenizer"
  | some t => .ok (t.vocabSizeFn true % 4294967296)

/-- Modelled from the spec: the signature the specification documents,
`vocab_size(handle, include_added_tokens) -> integer`, which returns the
engine's vocabulary size according to the include-added-tokens flag.  This
definition follows the spec's words and exists to be compared with the
source-derived `vocab_size` above, which lacks the flag parameter. -/
def vocab_size_as_specified (t : Tokenizer) (include_added_tokens : Bool) : Nat :=
  t.vocabSizeFn include_added_tokens % 4294967296

/-- Numeric code that `get_truncation` writes for an engine truncation
direction. -/
def truncationDirectionCode : TruncationDirection → Nat
  | .left => 0
  | .right => 1

/-- Numeric code that `get_truncation` writes for an engine truncation
strategy. -/
def truncationStrategyCode : TruncationStrategy → Nat
  | .longestFirst => 0
  | .onlyFirst => 1
  | .onlySecond => 2

/-- Embedding of `set_truncation` (configure.rs).  A null handle returns the
owned error string of the source.  A null record clears the truncation via
the engine.  A non-null record is converted field by field, in the source's
struct-literal evaluation order (max_length, direction, stride, strategy):
a direction outside 0/1 or a strategy outside 0/1/2 hits the source's two
explicit panics instead of the error channel.  An engine rejection is
converted to an owned error string, and the configuration stays as it was.
The result pairs the returned error string (null = success) with the
post-call engine state behind the handle. -/
def set_truncation (tp : Option Tokenizer) (params : Option TruncationParams) :
    POr (Option String × Option Tokenizer) :=
  match tp with
  | none => .ok (some "failed to cast tokenizer", none)
  | some t =>
    match params with
    | none =>
      match t.withTruncation none with
      | .error e => .ok (some ("failed tokenizer.with_truncation: " ++ e), some t)
      | .ok t1 => .ok (none, some t1)
    | some p =>
      if p.direction = 0 ∨ p.direction = 1 then
        if p.strategy ≤ 2 then
          let ep : EngineTruncationParams :=
            { max_length := p.max_length
              direction := if p.direction = 0 then .left else .right
              stride := p.stride
              strategy :=
                if p.strategy = 0 then .longestFirst
                else if p.strategy = 1 then .onlyFirst
                else .onlySecond }
          match t.withTruncation (some ep) with
          | .error e => .ok (some ("failed tokenizer.with_truncation: " ++ e), some t)
          | .ok t1 => .ok (none, some t1)
        else .panicked "invalid truncation strategy"
      else .panicked "invalid truncation direction"

/-- Embedding of `get_truncation` (configure.rs): panics on a null handle
(the `expect` in `convert_to_tokenizer_ref(..).expect(..)`), returns
`false` with the caller's record untouched when no truncation is
configured, and otherwise returns `true` with all four fields written
(usize values cast to u32). -/
def get_truncation (tp : Option Tokenizer) (params : TruncationParams) :
    POr (Bool × TruncationParams) :=
  match convert_to_tokenizer_ref tp with
  | .error _ => .panicked "Invalid Tokenizer object!?"
  | .ok t =>
    match t.truncation with
    | none => .ok (false, params)
    | some p =>
      .ok (true,
        { max_length := p.max_length % 4294967296
          stride := p.stride % 4294967296
          direction := truncationDirectionCode p.direction
          strategy := truncationStrategyCode p.strategy })

/-- Conversion of a boundary `PaddingParams` record (with the pad-token
bytes already extracted) to the engine-native parameters, exactly as the
struct literal in `set_padding` builds them. -/
def paddingFromRecord (p : PaddingParams) (tokenBytes : List Nat) : EnginePaddingParams :=
  { strategy := if p.strategy = 0 then .batchLongest else .fixed p.strategy
    direction := if p.direction = 0 then .left else .right
    pad_to_multiple_of := if p.pad_to_multiple_of = 0 then none else some p.pad_to_multiple_of
    pad_id := p.pad_id
    pad_type_id := p.pad_type_id
    pad_token := tokenBytes }

/-- Embedding of `set_padding` (configure.rs): silently returns on a null
handle; a null record clears the padding; otherwise the pad-token C string
is read (empty when the field is null) and decoded with
`to_str().unwrap()` — a panic when its bytes are not valid UTF-8 — and the
engine's padding is replaced (the engine result is discarded by the
source).  Returns the post-call engine state behind the handle. -/
def set_padding (tp : Option Tokenizer) (params : Option PaddingParams) :
    POr (Option Tokenizer) :=
  match tp with
  | none => .ok none
  | some t =>
    match params with
    | none => .ok (some (t.withPadding none))
    | some p =>
      match p.pad_token with
      | none => .ok (some (t.withPadding (some (paddingFromRecord p []))))
      | some bs =>
        match utf8Decode bs with
        | none => .panicked "invalid utf-8 sequence"
        | some _ => .ok (some (t.withPadding (some (paddingFromRecord p bs))))

/-- Embedding of `get_padding` (configure.rs): panics on a null handle,
returns `false` with the record untouched when no padding is configured;
otherwise writes every field (source order: pad_id, pad_type_id,
pad_to_multiple_of, direction, strategy, pad_token) and allocates a fresh
`CString` copy of the engine's pad token on every successful call — the
third component of the result is the id of that fresh heap block, and the
allocation state advances.  `CString::new(..).unwrap()` would panic on an
interior 0 byte in the engine's pad token. -/
def get_padding (tp : Option Tokenizer) (params : PaddingParams) (a : Alloc) :
    POr ((Bool × PaddingParams × Option Nat) × Alloc) :=
  match convert_to_tokenizer_ref tp with
  | .error _ => .panicked "Invalid Tokenizer object!?"
  | .ok t =>
    match t.padding with
    | none => .ok ((false, params, none), a)
    | some p =>
      if 0 ∈ p.pad_token then .panicked "nul byte found in provided data"
      else
        let blk := allocBlock a
        .ok ((true,
          { pad_id := p.pad_id
            pad_type_id := p.pad_type_id
            pad_to_multiple_of :=
              match p.pad_to_multiple_of with
              | some v => v % 4294967296
              | none => 0
            direction :=
              match p.direction with
              | .left => 0
              | .right => 1
            strategy :=
              match p.strategy with
              | .batchLongest => 0
              | .fixed v => v % 4294967296
            pad_token := some p.pad_token }, some blk.1), blk.2)

/-! Result marshaling (encode.rs). -/

/-- The per-token `CString::new(token)?.into_raw()` loop inside
`encode_process`: each token text becomes a fresh raw `CString` block; a
token with an interior 0 byte makes `CString::new` fail, the error
propagates, and the blocks already created stay allocated (their raw
pointers were pushed into a `Vec` that does not own them). -/
def cstringLoop : Alloc → List (List Nat) → Except String Unit × Alloc
  | a, [] => (.ok (), a)
  | a, tok :: toks =>
    if 0 ∈ tok then (.error "nul byte found in provided data", a)
    else cstringLoop (allocBlock a).2 toks

/-- The tokens block of `encode_process`: when requested, the `Vec` holding
the token pointers is allocated, each token is converted by `cstringLoop`,
and on failure that `Vec`'s own storage is dropped (freed) while the
converted `CString`s are not; when not requested the field stays the null
absent marker and nothing is allocated. -/
def tokensStep (a : Alloc) (toks : List (List Nat)) (flag : Bool) :
    Except String (Option (List (List Nat))) × Alloc :=
  if flag then
    let vt := allocIfPos a toks.length
    let lr := cstringLoop vt.2 toks
    match lr.1 with
    | .error e => (.error e, freeOpt lr.2 vt.1)
    | .ok _ => (.ok (some toks), lr.2)
  else (.ok none, a)

/-- An optional u32-sequence field of `encode_process`: when requested, the
engine sequence is copied into a shrunk-to-fit forgotten `Vec` (an
allocation when nonempty); when not requested the field is the null absent
marker and nothing is allocated. -/
def optVecStep (a : Alloc) (flag : Bool) (v : List Nat) : Option (List Nat) × Alloc :=
  if flag then (some v, (allocIfPos a v.length).2) else (none, a)

/-- The offsets field of `encode_process`: as `optVecStep`, with each
(start, end) usize pair cast to u32. -/
def optOffsetsStep (a : Alloc) (flag : Bool) (v : List (Nat × Nat)) :
    Option (List (Nat × Nat)) × Alloc :=
  if flag then
    (some (v.map (fun s => (s.1 % 4294967296, s.2 % 4294967296))), (allocIfPos a v.length).2)
  else (none, a)

/-- Embedding of `encode_process` (encode.rs): builds one `Buffer` from one
engine `Encoding`.  The ids `Vec` is always copied, forgotten and owned by
the buffer; each optional field is built only when requested; the only
failure is a token text with an interior 0 byte, and on that failure the
already-forgotten ids storage and the already-converted token `CString`s
stay allocated with no owner in the returned value. -/
def encode_process (a : Alloc) (encoding : Encoding) (options : EncodeParams) :
    Except String Buffer × Alloc :=
  let a1 := (allocIfPos a encoding.ids.length).2
  let ts := tokensStep a1 encoding.tokens options.return_tokens
  match ts.1 with
  | .error e => (.error e, ts.2)
  | .ok tokens =>
    let s3 := optVecStep ts.2 options.return_type_ids encoding.type_ids
    let s4 := optVecStep s3.2 options.return_special_tokens_mask encoding.special_tokens_mask
    let s5 := optVecStep s4.2 options.return_attention_mask encoding.attention_mask
    let s6 := optOffsetsStep s5.2 options.return_offsets encoding.offsets
    (.ok
      { ids := encoding.ids
        type_ids := s3.1
        special_tokens_mask := s4.1
        attention_mask := s5.1
        tokens := tokens
        offsets := s6.1
        len := encoding.ids.length % 4294967296 }, s6.2)

/-- Embedding of `result_to_encode_results` (encode.rs): an `Ok` aggregate
passes through; an error becomes an aggregate with zero buffers, a null
buffer pointer and a freshly allocated owned error string. -/
def result_to_encode_results (r : Except String EncodeResults) (a : Alloc) :
    EncodeResults × Alloc :=
  match r with
  | .ok er => (er, a)
  | .error e => ({ len := 0, encoded := none, error := some e }, (allocBlock a).2)

/-- Embedding of `encode_impl` (encode.rs): validates the handle through
`convert_to_tokenizer_ref` (error channel), then converts the input C
string with `to_str().unwrap()` — a panic when the bytes are not valid
UTF-8, not an error-channel return — then invokes the engine entry point
selected by the offset mode, converts an engine failure into the error
channel, marshals the encoding, and on success packages exactly one buffer
(the one-element `Vec` is a fresh forgotten allocation). -/
def encode_impl (tp : Option Tokenizer) (message : List Nat) (options : EncodeParams)
    (a : Alloc) : POr (Except String EncodeResults × Alloc) :=
  match convert_to_tokenizer_ref tp with
  | .error e => .ok (.error e, a)
  | .ok t =>
    match utf8Decode message with
    | none => .panicked "invalid utf-8 sequence"
    | some text =>
      match
        (if options.with_offsets_char_mode then t.encodeCharFn text options.add_special_tokens
         else t.encodeFn text options.add_special_tokens) with
      | .error e => .ok (.error ("encoding failed: " ++ e), a)
      | .ok enc =>
        let pr := encode_process a enc options
        match pr.1 with
        | .error e => .ok (.error e, pr.2)
        | .ok buffer =>
          .ok (.ok { len := 1, encoded := some [buffer], error := none },
            (allocBlock pr.2).2)

/-- Embedding of the exported `encode` (encode.rs): `encode_impl` composed
with `result_to_encode_results`. -/
def encode (tp : Option Tokenizer) (message : List Nat) (options : EncodeParams)
    (a : Alloc) : POr (EncodeResults × Alloc) :=
  match encode_impl tp message options a with
  | .panicked m => .panicked m
  | .ok ra => .ok (result_to_encode_results ra.1 ra.2)

/-- The marshaling loop of `encode_batch_impl`: each engine encoding becomes
a buffer in input order; the first marshaling failure aborts the loop,
returning the error with the allocation state as it stands — the buffers
already pushed are merely dropped as plain structs, so the allocations
inside them stay live. -/
def batchLoop (options : EncodeParams) :
    Alloc → List Encoding → List Buffer → Except String (List Buffer) × Alloc
  | a, [], acc => (.ok acc.reverse, a)
  | a, e :: es, acc =>
    let pr := encode_process a e options
    match pr.1 with
    | .error err => (.error err, pr.2)
    | .ok b => batchLoop options pr.2 es (b :: acc)

/-- Embedding of `encode_batch_impl` (encode.rs): validates the handle, then
converts every input C string with `to_string_lossy` (never a failure —
invalid UTF-8 is replaced, not rejected), invokes the engine's batch entry
point once, and on success marshals each encoding in input order into the
`vec_buffers` storage (allocated up front, dropped again on a marshaling
failure, forgotten and owned by the caller on success; an empty result
frees it through `shrink_to_fit`). -/
def encode_batch_impl (tp : Option Tokenizer) (messages : List (List Nat))
    (options : EncodeParams) (a : Alloc) : Except String EncodeResults × Alloc :=
  match convert_to_tokenizer_ref tp with
  | .error e => (.error e, a)
  | .ok t =>
    let texts := messages.map utf8Lossy
    match
      (if options.with_offsets_char_mode then
        t.encodeBatchCharFn texts options.add_special_tokens
       else t.encodeBatchFn texts options.add_special_tokens) with
    | .error e => (.error ("encoding failed: " ++ e), a)
    | .ok encodings =>
      let vb := allocIfPos a messages.length
      let lr := batchLoop options vb.2 encodings []
      match lr.1 with
      | .error e => (.error e, freeOpt lr.2 vb.1)
      | .ok buffers =>
        let a2 := if buffers.length = 0 then freeOpt lr.2 vb.1 else lr.2
        (.ok { len := buffers.length % 4294967296, encoded := some buffers, error := none }, a2)

/-- Embedding of the exported `encode_batch` (encode.rs): `encode_batch_impl`
composed with `result_to_encode_results`. -/
def encode_batch (tp : Option Tokenizer) (messages : List (List Nat))
    (options : EncodeParams) (a : Alloc) : EncodeResults × Alloc :=
  let r := encode_batch_impl tp messages options a
  result_to_encode_results r.1 r.2

/-! Concrete engine fixtures, used by witnesses and counterexamples. -/

/-- A small fixed engine encoding: two tokens with ids, masks, token texts
and offsets. -/
def encFixture : Encoding :=
  { ids := [1, 2]
    type_ids := [0, 0]
    special_tokens_mask := [0, 0]
    attention_mask := [1, 1]
    tokens := [[97], [98]]
    offsets := [(0, 1), (1, 2)] }

/-- An engine encoding whose single token text contains an interior 0 byte,
so its marshaling through `CString::new` fails. -/
def encNul : Encoding :=
  { ids := [9]
    type_ids := [0]
    special_tokens_mask := [0]
    attention_mask := [1]
    tokens := [[0]]
    offsets := [(0, 1)] }

/-- A concrete engine instance: every encode call yields `encFixture` (one
encoding per batch input), decode yields a fixed text, the vocabulary size
is 7 regardless of the flag, truncation parameters are always accepted and
no configuration is set. -/
def tokFixture : Tokenizer :=
  { encodeFn := fun _ _ => .ok encFixture
    encodeCharFn := fun _ _ => .ok encFixture
    encodeBatchFn := fun texts _ => .ok (texts.map (fun _ => encFixture))
    encodeBatchCharFn := fun texts _ => .ok (texts.map (fun _ => encFixture))
    decodeFn := fun _ _ => .ok [104, 105]
    vocabSizeFn := fun _ => 7
    acceptTrunc := fun _ => true
    truncErr := "bad truncation"
    truncation := none
    padding := none }

/-- Engine instance whose decode always fails. -/
def tokDecodeFail : Tokenizer :=
  { tokFixture with decodeFn := fun _ _ => .error "id out of vocabulary" }

/-- Engine instance whose vocabulary size depends on the
include-added-tokens flag: 5 with added tokens, 3 without. -/
def tokVocab : Tokenizer :=
  { tokFixture with vocabSizeFn := fun withAdded => if withAdded then 5 else 3 }

/-- Engine instance whose batch encode yields a good first encoding and a
second one whose token text contains an interior 0 byte. -/
def tokBatchNul : Tokenizer :=
  { tokFixture with encodeBatchFn := fun _ _ => .ok [encFixture, encNul] }

/-- Engine instance with a truncation policy configured. -/
def tokTrunc : Tokenizer :=
  { tokFixture with
      truncation := some
        { direction := .right, strategy := .onlyFirst, max_length := 128, stride := 10 } }

/-- Options record with every optional field requested (byte-offset mode). -/
def optsAll : EncodeParams :=
  { add_special_tokens := true
    return_tokens := true
    return_type_ids := true
    return_special_tokens_mask := true
    return_attention_mask := true
    return_offsets := true
    with_offsets_char_mode := false }

/-- Options record with no optional field requested (byte-offset mode). -/
def optsNone : EncodeParams :=
  { add_special_tokens := true
    return_tokens := false
    return_type_ids := false
    return_special_tokens_mask := false
    return_attention_mask := false
    return_offsets := false
    with_offsets_char_mode := false }

/-- Options record requesting only the token texts (byte-offset mode). -/
def optsTokens : EncodeParams :=
  { add_special_tokens := true
    return_tokens := true
    return_type_ids := false
    return_special_tokens_mask := false
    return_attention_mask := false
    return_offsets := false
    with_offsets_char_mode := false }

/-- An all-zero caller-side truncation record. -/
def recZero : TruncationParams :=
  { direction := 0, strategy := 0, max_length := 0, stride := 0 }

/-! Helper lemmas about the embedded operations, shared by the claim
theorems below. -/

/-- Strict decode failure implies the lossy decoding contains at least one
U+FFFD replacement character (fuel-indexed version). -/
lemma utf8LossyGo_mem_of_decodeGo_none (fuel : Nat) :
    ∀ l : List Nat, l.length ≤ fuel → utf8DecodeGo fuel l = none →
      0xFFFD ∈ utf8LossyGo fuel l := by
  induction fuel with
  | zero =>
    intro l hl hd
    cases l with
    | nil => simp [utf8DecodeGo] at hd
    | cons b rest => simp at hl
  | succ fuel ih =>
    intro l hl hd
    cases l with
    | nil => simp [utf8DecodeGo] at hd
    | cons b rest =>
      cases hc : utf8DecodeCore b rest with
      | none =>
        simp only [utf8LossyGo, hc]
        exact List.mem_cons_self _ _
      | some ck =>
        obtain ⟨c, k⟩ := ck
        simp only [utf8DecodeGo, hc, Option.map_eq_none'] at hd
        simp only [utf8LossyGo, hc, List.mem_cons]
        right
        apply ih
        · have := List.length_drop (k - 1) rest
          simp only [List.length_cons] at hl
          omega
        · exact hd

/-- Bytes that are not valid UTF-8 lossily decode to a text containing the
U+FFFD replacement character. -/
lemma utf8Lossy_mem_of_decode_none (l : List Nat) (h : utf8Decode l = none) :
    0xFFFD ∈ utf8Lossy l :=
  utf8LossyGo_mem_of_decodeGo_none l.length l le_rfl h

/-- A successful tokens step yields the token texts exactly when they were
requested and the null absent marker otherwise. -/
lemma tokensStep_fst_ok (a : Alloc) (toks : List (List Nat)) (flag : Bool)
    (o : Option (List (List Nat))) (h : (tokensStep a toks flag).1 = .ok o) :
    o = if flag then some toks else none := by
  cases flag with
  | false =>
    simp only [tokensStep, Bool.false_eq_true, if_false] at h ⊢
    exact (Except.ok.inj h).symm
  | true =>
    simp only [tokensStep, if_true] at h ⊢
    split at h
    · exact absurd h (by simp_all)
    · simp_all

/-- An optional u32-sequence field is present exactly when requested. -/
lemma optVecStep_fst (a : Alloc) (flag : Bool) (v : List Nat) :
    (optVecStep a flag v).1 = if flag then some v else none := by
  cases flag <;> simp [optVecStep]

/-- The offsets field is present (with u32-cast pairs) exactly when
requested. -/
lemma optOffsetsStep_fst (a : Alloc) (flag : Bool) (v : List (Nat × Nat)) :
    (optOffsetsStep a flag v).1 =
      if flag then some (v.map (fun s => (s.1 % 4294967296, s.2 % 4294967296))) else none := by
  cases flag <;> simp [optOffsetsStep]

/-- Shape of a successfully marshaled buffer: ids and length always
populated from the engine encoding, every optional field present if and
only if its option was set. -/
lemma encode_process_ok (a : Alloc) (enc : Encoding) (opts : EncodeParams)
    (b : Buffer) (a' : Alloc) (h : encode_process a enc opts = (.ok b, a')) :
    b.ids = enc.ids ∧ b.len = enc.ids.length % 4294967296
    ∧ b.tokens = (if opts.return_tokens then some enc.tokens else none)
    ∧ b.type_ids = (if opts.return_type_ids then some enc.type_ids else none)
    ∧ b.special_tokens_mask =
        (if opts.return_special_tokens_mask then some enc.special_tokens_mask else none)
    ∧ b.attention_mask = (if opts.return_attention_mask then some enc.attention_mask else none)
    ∧ b.offsets = (if opts.return_offsets then
        some (enc.offsets.map (fun s => (s.1 % 4294967296, s.2 % 4294967296))) else none) := by
  simp only [encode_process] at h
  split at h
  · exact absurd h (by simp)
  · rename_i o ho
    rw [Prod.mk.injEq] at h
    obtain ⟨hb, ha⟩ := h
    have hb' := Except.ok.inj hb
    subst hb'
    refine ⟨rfl, rfl, ?_, ?_, ?_, ?_, ?_⟩
    · exact tokensStep_fst_ok _ _ _ _ ho
    · exact optVecStep_fst _ _ _
    · exact optVecStep_fst _ _ _
    · exact optVecStep_fst _ _ _
    · exact optOffsetsStep_fst _ _ _

/-- Case analysis on a non-panicking `encode_impl` run: the result is either
a channelled error, or exactly one well-shaped buffer. -/
lemma encode_impl_ok_cases (tp : Option Tokenizer) (msg : List Nat) (opts : EncodeParams)
    (a : Alloc) (x : Except String EncodeResults) (a' : Alloc)
    (h : encode_impl tp msg opts a = .ok (x, a')) :
    (∃ e, x = .error e) ∨
    (∃ b, x = .ok { len := 1, encoded := some [b], error := none }
      ∧ (b.tokens.isSome ↔ opts.return_tokens = true)
      ∧ (b.type_ids.isSome ↔ opts.return_type_ids = true)
      ∧ (b.special_tokens_mask.isSome ↔ opts.return_special_tokens_mask = true)
      ∧ (b.attention_mask.isSome ↔ opts.return_attention_mask = true)
      ∧ (b.offsets.isSome ↔ opts.return_offsets = true)
      ∧ b.len = b.ids.length % 4294967296) := by
  simp only [encode_impl] at h
  split at h
  · exact Or.inl ⟨_, (Prod.mk.inj (POr.ok.inj h)).1.symm⟩
  · split at h
    · exact POr.noConfusion h
    · split at h
      · exact Or.inl ⟨_, (Prod.mk.inj (POr.ok.inj h)).1.symm⟩
      · rename_i enc henc
        split at h
        · exact Or.inl ⟨_, (Prod.mk.inj (POr.ok.inj h)).1.symm⟩
        · rename_i buffer hps
          replace h := Prod.mk.inj (POr.ok.inj h)
          have hpair : encode_process a enc opts =
              (Except.ok buffer, (encode_process a enc opts).2) := by rw [← hps]
          obtain ⟨hids, hlen, htok, hty, hsp, hat, hof⟩ :=
            encode_process_ok _ _ _ _ _ hpair
          refine Or.inr ⟨buffer, h.1.symm, ?_, ?_, ?_, ?_, ?_, ?_⟩
          · rw [htok]; cases opts.return_tokens <;> simp
          · rw [hty]; cases opts.return_type_ids <;> simp
          · rw [hsp]; cases opts.return_special_tokens_mask <;> simp
          · rw [hat]; cases opts.return_attention_mask <;> simp
          · rw [hof]; cases opts.return_offsets <;> simp
          · rw [hids]; exact hlen

/-- Case analysis on an `encode_batch_impl` run: either a channelled error,
or a success whose aggregate has no error and a present buffer sequence. -/
lemma encode_batch_impl_cases (tp : Option Tokenizer) (msgs : List (List Nat))
    (opts : EncodeParams) (a : Alloc) (x : Except String EncodeResults) (a' : Alloc)
    (h : encode_batch_impl tp msgs opts a = (x, a')) :
    (∃ e, x = .error e) ∨
    (∃ er, x = .ok er ∧ er.error = none ∧ ∃ bufs, er.encoded = some bufs) := by
  simp only [encode_batch_impl] at h
  split at h
  · exact Or.inl ⟨_, (Prod.mk.inj h).1.symm⟩
  · split at h
    · exact Or.inl ⟨_, (Prod.mk.inj h).1.symm⟩
    · split at h
      · exact Or.inl ⟨_, (Prod.mk.inj h).1.symm⟩
      · exact Or.inr ⟨_, (Prod.mk.inj h).1.symm, rfl, _, rfl⟩

/-- Marshaling one encoding cannot fail when token texts are not
requested. -/
lemma encode_process_ok_of_no_tokens (a : Alloc) (enc : Encoding) (opts : EncodeParams)
    (h : opts.return_tokens = false) :
    ∃ b a', encode_process a enc opts = (.ok b, a') := by
  simp only [encode_process, h, tokensStep, Bool.false_eq_true, if_false]
  exact ⟨_, _, rfl⟩

/-- The batch marshaling loop cannot fail when token texts are not
requested, and produces one buffer per encoding. -/
lemma batchLoop_ok_of_no_tokens (opts : EncodeParams) (h : opts.return_tokens = false) :
    ∀ (encs : List Encoding) (a : Alloc) (acc : List Buffer),
      ∃ bufs a', batchLoop opts a encs acc = (.ok bufs, a')
        ∧ bufs.length = acc.length + encs.length := by
  intro encs
  induction encs with
  | nil =>
    intro a acc
    exact ⟨acc.reverse, a, rfl, by simp⟩
  | cons e es ih =>
    intro a acc
    obtain ⟨b, a1, hb⟩ := encode_process_ok_of_no_tokens a e opts h
    obtain ⟨bufs, a', hl, hlen⟩ := ih a1 (b :: acc)
    refine ⟨bufs, a', ?_, ?_⟩
    · simp only [batchLoop, hb]
      exact hl
    · simp only [List.length_cons] at hlen
      simp only [List.length_cons]
      omega

/-- A configured padding is read back field by field, with the pad token
copied into a fresh heap block whose id is the allocator's next counter. -/
lemma get_padding_configured (t : Tokenizer) (p : EnginePaddingParams)
    (out : PaddingParams) (a : Alloc) (hp : t.padding = some p)
    (hnul : 0 ∉ p.pad_token) :
    get_padding (some t) out a = POr.ok ((true,
      { pad_id := p.pad_id
        pad_type_id := p.pad_type_id
        pad_to_multiple_of :=
          match p.pad_to_multiple_of with
          | some v => v % 4294967296
          | none => 0
        direction :=
          match p.direction with
          | .left => 0
          | .right => 1
        strategy :=
          match p.strategy with
          | .batchLongest => 0
          | .fixed v => v % 4294967296
        pad_token := some p.pad_token }, some a.next), (allocBlock a).2) := by
  simp only [get_padding, convert_to_tokenizer_ref, hp, if_neg hnul, allocBlock]


/-! Claim theorems. -/

/-- Claim C1.  `free_tokenizer(null)` is a safe no-op (in fact the function
never changes the allocation state at all), but the second half of the
claim fails on the code: for the handle returned by a successful
`from_bytes` (block 0 here), a `free_tokenizer` call does not reclaim the
`Tokenizer` allocation — the source's body merely casts the pointer and
discards the cast, so block 0 is still live afterwards, contradicting the
claim (and the function's own doc comment) that the engine instance is
deallocated exactly once. -/
theorem c1_free_tokenizer_never_reclaims :
    (∀ ptr a, free_tokenizer ptr a = a)
    ∧ (from_bytes (fun _ => .ok tokFixture) [] Alloc.empty).1.value = some 0
    ∧ (from_bytes (fun _ => .ok tokFixture) [] Alloc.empty).1.error = none
    ∧ (free_tokenizer (some 0)
        (from_bytes (fun _ => .ok tokFixture) [] Alloc.empty).2).live = [0] :=
  ⟨fun ptr a => by cases ptr <;> rfl, rfl, rfl, rfl⟩

/-- Claim C2.  The claim fails on the code: an engine decode failure is not
converted into the error channel — `decode` hits
`expect("failed to decode input")` and panics, terminating the process;
likewise `encode` on input bytes that are not valid UTF-8 hits
`to_str().unwrap()` and panics instead of returning the error through
`EncodeResults.error`.  Both panics are evaluated here at concrete failing
inputs. -/
theorem c2_decode_and_encode_panic :
    decode (some tokDecodeFail) [7] true = .panicked "failed to decode input"
    ∧ encode (some tokFixture) [255] optsNone Alloc.empty =
        .panicked "invalid utf-8 sequence" :=
  ⟨rfl, rfl⟩

/-- Claim C3.  The second half of the claim holds (an aggregate with an
error carries zero buffers), but the first half fails on the code: in a
two-input batch with token texts requested, where the second encoding's
token text contains an interior 0 byte, the marshaling of item 2 fails and
the aggregate is the error form — yet the final allocation state still
holds blocks 1 to 4 (item 1's ids storage, its token-pointer `Vec`
storage, and its two token `CString`s) and block 5 (item 2's ids storage),
none of which is owned by the returned value: the earlier item's buffer is
leaked, not released.  Only block 7, the returned error string, is owned
by the caller; the claim requires the live list to be exactly that error
string. -/
theorem c3_batch_error_leaks_earlier_buffers :
    encode_batch (some tokBatchNul) [[104], [105]] optsTokens Alloc.empty =
      ({ len := 0, encoded := none, error := some "nul byte found in provided data" },
       { next := 8, live := [7, 5, 4, 3, 2, 1] }) :=
  rfl

/-- Claim C4, counterexample.  At direction 99 the claim demands a non-null
owned error message from `set_truncation`; the code instead hits the
source's panic for an invalid truncation direction, so no `POr.ok` result
(with any error string and any post-state) exists. -/
theorem c4_counterexample :
    ¬ ∃ e st, set_truncation (some tokFixture)
        (some { direction := 99, strategy := 0, max_length := 512, stride := 0 }) =
      POr.ok (some e, st) := by
  intro hex
  obtain ⟨e, st, h⟩ := hex
  have hp : set_truncation (some tokFixture)
      (some { direction := 99, strategy := 0, max_length := 512, stride := 0 }) =
      POr.panicked "invalid truncation direction" := rfl
  rw [hp] at h
  exact POr.noConfusion h

/-- Claim C4, amended.  For every valid handle and every truncation record
whose direction or strategy field is outside the documented enum domain,
`set_truncation` does not return an error message: it panics (a fatal
contract violation), aborting before the engine configuration is ever
touched, so no configuration change is observable. -/
theorem c4_amended (t : Tokenizer) (p : TruncationParams)
    (h : ¬ (p.direction = 0 ∨ p.direction = 1) ∨ ¬ (p.strategy ≤ 2)) :
    set_truncation (some t) (some p) = POr.panicked "invalid truncation direction"
    ∨ set_truncation (some t) (some p) = POr.panicked "invalid truncation strategy" := by
  rcases h with h | h
  · left; simp only [set_truncation, if_neg h]
  · by_cases hd : p.direction = 0 ∨ p.direction = 1
    · right; simp only [set_truncation, if_pos hd, if_neg h]
    · left; simp only [set_truncation, if_neg hd]

/-- Claim C4, witness for the amended theorem at direction 99. -/
theorem c4_amended_witness :
    set_truncation (some tokFixture)
        (some { direction := 99, strategy := 0, max_length := 512, stride := 0 }) =
      POr.panicked "invalid truncation direction"
    ∨ set_truncation (some tokFixture)
        (some { direction := 99, strategy := 0, max_length := 512, stride := 0 }) =
      POr.panicked "invalid truncation strategy" :=
  c4_amended tokFixture { direction := 99, strategy := 0, max_length := 512, stride := 0 }
    (Or.inl (by decide))

/-- Claim C5.  Every `EncodeResults` value actually returned by `encode` or
`encode_batch` is a proper tagged union: either the error is null and the
buffer sequence is present, or the error is non-null with length 0 and a
null buffer pointer — never both, never neither; and a successful single
`encode` always has length exactly 1 with exactly one buffer. -/
theorem c5_tagged_union :
    (∀ tp msg opts a r a', encode tp msg opts a = .ok (r, a') →
      (((r.error = none ∧ ∃ bufs, r.encoded = some bufs)
        ∨ (r.error.isSome ∧ r.len = 0 ∧ r.encoded = none))
       ∧ (r.error = none → r.len = 1 ∧ ∃ b, r.encoded = some [b])))
    ∧ (∀ tp msgs opts a r a', encode_batch tp msgs opts a = (r, a') →
      ((r.error = none ∧ ∃ bufs, r.encoded = some bufs)
        ∨ (r.error.isSome ∧ r.len = 0 ∧ r.encoded = none))) := by
  constructor
  · intro tp msg opts a r a' h
    cases him : encode_impl tp msg opts a with
    | panicked m =>
      simp only [encode, him] at h
      exact POr.noConfusion h
    | ok ra =>
      simp only [encode, him] at h
      have hra := POr.ok.inj h
      cases hx : ra.1 with
      | error e =>
        simp only [result_to_encode_results, hx] at hra
        obtain ⟨h1, h2⟩ := Prod.mk.inj hra
        rw [← h1]
        refine ⟨Or.inr ⟨rfl, rfl, rfl⟩, ?_⟩
        intro he
        exact absurd he (by simp)
      | ok er =>
        rcases encode_impl_ok_cases tp msg opts a ra.1 ra.2 him with ⟨e, hxx⟩ | ⟨b, hxx, _⟩
        · rw [hx] at hxx
          exact absurd hxx (by simp)
        · rw [hx] at hxx
          have her := Except.ok.inj hxx
          subst her
          simp only [result_to_encode_results, hx] at hra
          obtain ⟨h1, h2⟩ := Prod.mk.inj hra
          rw [← h1]
          exact ⟨Or.inl ⟨rfl, ⟨[b], rfl⟩⟩, fun _ => ⟨rfl, ⟨b, rfl⟩⟩⟩
  · intro tp msgs opts a r a' h
    have hcases := encode_batch_impl_cases tp msgs opts a
      (encode_batch_impl tp msgs opts a).1 (encode_batch_impl tp msgs opts a).2 rfl
    simp only [encode_batch] at h
    rcases hcases with ⟨e, hxx⟩ | ⟨er, hxx, herr, bufs, henc⟩
    · simp only [result_to_encode_results, hxx] at h
      obtain ⟨h1, h2⟩ := Prod.mk.inj h
      rw [← h1]
      exact Or.inr ⟨rfl, rfl, rfl⟩
    · simp only [result_to_encode_results, hxx] at h
      obtain ⟨h1, h2⟩ := Prod.mk.inj h
      rw [← h1]
      exact Or.inl ⟨herr, ⟨bufs, henc⟩⟩

/-- The buffer that marshaling `encFixture` with every field requested
produces. -/
def bufferAll : Buffer :=
  { ids := [1, 2]
    type_ids := some [0, 0]
    special_tokens_mask := some [0, 0]
    attention_mask := some [1, 1]
    tokens := some [[97], [98]]
    offsets := some [(0, 1), (1, 2)]
    len := 2 }

/-- The buffer that marshaling `encFixture` with no optional field requested
produces. -/
def bufferIdsOnly : Buffer :=
  { ids := [1, 2]
    type_ids := none
    special_tokens_mask := none
    attention_mask := none
    tokens := none
    offsets := none
    len := 2 }

/-- The aggregate returned by a successful single encode of `encFixture`
with every field requested. -/
def resultAll : EncodeResults :=
  { len := 1, encoded := some [bufferAll], error := none }

/-- The aggregate returned by a successful encode of `encFixture` with no
optional field requested. -/
def resultIdsOnly : EncodeResults :=
  { len := 1, encoded := some [bufferIdsOnly], error := none }

/-- Claim C5, witness: a successful single encode and a successful batch
encode on the concrete fixture engine, with the tagged-union invariant
checked on the actual returned values. -/
theorem c5_witness :
    (((resultAll.error = none ∧ ∃ bufs, resultAll.encoded = some bufs)
      ∨ (resultAll.error.isSome ∧ resultAll.len = 0 ∧ resultAll.encoded = none))
     ∧ (resultAll.error = none → resultAll.len = 1 ∧ ∃ b, resultAll.encoded = some [b]))
    ∧ ((resultIdsOnly.error = none ∧ ∃ bufs, resultIdsOnly.encoded = some bufs)
      ∨ (resultIdsOnly.error.isSome ∧ resultIdsOnly.len = 0 ∧ resultIdsOnly.encoded = none)) :=
  ⟨c5_tagged_union.1 (some tokFixture) [104] optsAll Alloc.empty
      resultAll { next := 9, live := [8, 7, 6, 5, 4, 3, 2, 1, 0] } rfl,
   c5_tagged_union.2 (some tokFixture) [[104]] optsNone Alloc.empty
      resultIdsOnly { next := 2, live := [1, 0] } rfl⟩

/-- Claim C6.  Every successful single encode returns exactly one buffer
whose ids and length are populated (length is the u32 cast of the ids
count) and whose optional fields are present if and only if the
corresponding option was requested — a field not requested is the null
absent marker, never an allocated empty sequence, and a requested field is
never null. -/
theorem c6_field_presence (tp : Option Tokenizer) (msg : List Nat) (opts : EncodeParams)
    (a : Alloc) (r : EncodeResults) (a' : Alloc)
    (h : encode tp msg opts a = .ok (r, a')) (he : r.error = none) :
    ∃ b, r.encoded = some [b] ∧ r.len = 1
      ∧ (b.tokens.isSome ↔ opts.return_tokens = true)
      ∧ (b.type_ids.isSome ↔ opts.return_type_ids = true)
      ∧ (b.special_tokens_mask.isSome ↔ opts.return_special_tokens_mask = true)
      ∧ (b.attention_mask.isSome ↔ opts.return_attention_mask = true)
      ∧ (b.offsets.isSome ↔ opts.return_offsets = true)
      ∧ b.len = b.ids.length % 4294967296 := by
  cases him : encode_impl tp msg opts a with
  | panicked m =>
    simp only [encode, him] at h
    exact POr.noConfusion h
  | ok ra =>
    simp only [encode, him] at h
    have hra := POr.ok.inj h
    cases hx : ra.1 with
    | error e =>
      simp only [result_to_encode_results, hx] at hra
      obtain ⟨h1, h2⟩ := Prod.mk.inj hra
      rw [← h1] at he
      exact absurd he (by simp)
    | ok er =>
      rcases encode_impl_ok_cases tp msg opts a ra.1 ra.2 him with ⟨e, hxx⟩ | ⟨b, hxx, hflags⟩
      · rw [hx] at hxx
        exact absurd hxx (by simp)
      · rw [hx] at hxx
        have her := Except.ok.inj hxx
        subst her
        simp only [result_to_encode_results, hx] at hra
        obtain ⟨h1, h2⟩ := Prod.mk.inj hra
        rw [← h1]
        exact ⟨b, rfl, rfl, hflags⟩

/-- Claim C6, witness: encoding with all optional fields off on the fixture
engine yields a buffer with populated ids, length 2, and every optional
field the null absent marker. -/
theorem c6_witness :
    ∃ b, resultIdsOnly.encoded = some [b] ∧ resultIdsOnly.len = 1
      ∧ (b.tokens.isSome ↔ optsNone.return_tokens = true)
      ∧ (b.type_ids.isSome ↔ optsNone.return_type_ids = true)
      ∧ (b.special_tokens_mask.isSome ↔ optsNone.return_special_tokens_mask = true)
      ∧ (b.attention_mask.isSome ↔ optsNone.return_attention_mask = true)
      ∧ (b.offsets.isSome ↔ optsNone.return_offsets = true)
      ∧ b.len = b.ids.length % 4294967296 :=
  c6_field_presence (some tokFixture) [104] optsNone Alloc.empty
    resultIdsOnly { next := 2, live := [1, 0] } rfl rfl


/-- Claim C7, counterexample.  The claim quantifies over every padding
record with direction in 0/1 and a non-null pad token; for the record
whose pad-token bytes are the single byte 255 (not valid UTF-8),
`set_padding` does not complete at all — it panics in
`to_str().unwrap()` — so the promised round-trip through `get_padding`
fails at this input (no successful `set_padding` result exists). -/
theorem c7_counterexample :
    ¬ ∃ st, set_padding (some tokFixture)
        (some { strategy := 0, direction := 1, pad_to_multiple_of := 0,
                pad_id := 3, pad_type_id := 9, pad_token := some [255] }) = POr.ok st := by
  intro hex
  obtain ⟨st, h⟩ := hex
  have hp : set_padding (some tokFixture)
      (some { strategy := 0, direction := 1, pad_to_multiple_of := 0,
              pad_id := 3, pad_type_id := 9, pad_token := some [255] }) =
      POr.panicked "invalid utf-8 sequence" := rfl
  rw [hp] at h
  exact POr.noConfusion h

/-- Claim C7, amended.  For every valid handle and every padding record with
direction in 0/1 and a non-null pad token whose bytes are valid UTF-8 (the
amendment the counterexample forces), `set_padding` succeeds and a
subsequent `get_padding` returns true and writes back the same strategy,
direction, pad-to-multiple-of, pad id and pad-type id, and a pad token
with the same text; moreover the pad token written by `get_padding` is a
freshly allocated block on every call — a second call yields a different
block id. -/
theorem c7_padding_roundtrip (t : Tokenizer) (rec out : PaddingParams) (bs : List Nat)
    (hdir : rec.direction = 0 ∨ rec.direction = 1)
    (htok : rec.pad_token = some bs)
    (hutf : ∃ cs, utf8Decode bs = some cs)
    (hnul : 0 ∉ bs)
    (hstrat : rec.strategy < 4294967296)
    (hmult : rec.pad_to_multiple_of < 4294967296) :
    ∃ t1, set_padding (some t) (some rec) = POr.ok (some t1)
      ∧ ∀ a, ∃ out1 blk1 a1,
          get_padding (some t1) out a = POr.ok ((true, out1, some blk1), a1)
          ∧ out1.strategy = rec.strategy
          ∧ out1.direction = rec.direction
          ∧ out1.pad_to_multiple_of = rec.pad_to_multiple_of
          ∧ out1.pad_id = rec.pad_id
          ∧ out1.pad_type_id = rec.pad_type_id
          ∧ out1.pad_token = some bs
          ∧ (∀ out2 blk2 a2,
              get_padding (some t1) out a1 = POr.ok ((true, out2, some blk2), a2) →
              blk2 ≠ blk1) := by
  obtain ⟨cs, hcs⟩ := hutf
  refine ⟨t.withPadding (some (paddingFromRecord rec bs)), ?_, ?_⟩
  · simp only [set_padding, htok, hcs]
  · intro a
    have hp : (t.withPadding (some (paddingFromRecord rec bs))).padding =
        some (paddingFromRecord rec bs) := rfl
    have hnul' : 0 ∉ (paddingFromRecord rec bs).pad_token := hnul
    have h1 := get_padding_configured _ _ out a hp hnul'
    have h2 := get_padding_configured _ _ out (allocBlock a).2 hp hnul'
    refine ⟨_, a.next, (allocBlock a).2, h1, ?_, ?_, ?_, rfl, rfl, rfl, ?_⟩
    · show (match (paddingFromRecord rec bs).strategy with
        | .batchLongest => 0
        | .fixed v => v % 4294967296) = rec.strategy
      by_cases hs : rec.strategy = 0
      · simp [paddingFromRecord, hs]
      · simp [paddingFromRecord, if_neg hs, Nat.mod_eq_of_lt hstrat]
    · show (match (paddingFromRecord rec bs).direction with
        | .left => 0
        | .right => 1) = rec.direction
      rcases hdir with hd | hd
      · simp [paddingFromRecord, hd]
      · simp [paddingFromRecord, hd]
    · show (match (paddingFromRecord rec bs).pad_to_multiple_of with
        | some v => v % 4294967296
        | none => 0) = rec.pad_to_multiple_of
      by_cases hm : rec.pad_to_multiple_of = 0
      · simp [paddingFromRecord, hm]
      · simp [paddingFromRecord, if_neg hm, Nat.mod_eq_of_lt hmult]
    · intro out2 blk2 a2 hh
      rw [h2] at hh
      have := (Prod.mk.inj (POr.ok.inj hh)).1
      have hblk := (Prod.mk.inj (Prod.mk.inj this).2).2
      have hb2 : blk2 = (allocBlock a).2.next := (Option.some.inj hblk).symm
      rw [hb2]
      show (allocBlock a).2.next ≠ a.next
      simp [allocBlock]

/-- The concrete padding record used by the C7 witness: batch-longest
strategy, right direction, no multiple-of alignment, pad id 3, pad type
id 9, pad token the single byte 65. -/
def recPadIn : PaddingParams :=
  { strategy := 0
    direction := 1
    pad_to_multiple_of := 0
    pad_id := 3
    pad_type_id := 9
    pad_token := some [65] }

/-- An all-default caller-side padding record for `get_padding` output. -/
def recPadOut : PaddingParams :=
  { strategy := 0
    direction := 0
    pad_to_multiple_of := 0
    pad_id := 0
    pad_type_id := 0
    pad_token := none }

/-- Claim C7, witness for the amended round-trip at a concrete record whose
pad token is the single byte 65. -/
theorem c7_padding_roundtrip_witness :
    ∃ t1, set_padding (some tokFixture) (some recPadIn) = POr.ok (some t1)
      ∧ ∀ a, ∃ out1 blk1 a1,
          get_padding (some t1) recPadOut a = POr.ok ((true, out1, some blk1), a1)
          ∧ out1.strategy = recPadIn.strategy
          ∧ out1.direction = recPadIn.direction
          ∧ out1.pad_to_multiple_of = recPadIn.pad_to_multiple_of
          ∧ out1.pad_id = recPadIn.pad_id
          ∧ out1.pad_type_id = recPadIn.pad_type_id
          ∧ out1.pad_token = some [65]
          ∧ (∀ out2 blk2 a2,
              get_padding (some t1) recPadOut a1 = POr.ok ((true, out2, some blk2), a2) →
              blk2 ≠ blk1) :=
  c7_padding_roundtrip tokFixture recPadIn recPadOut [65]
    (Or.inr rfl) rfl ⟨[65], rfl⟩ (by decide) (by decide) (by decide)

/-- Claim C8.  Clearing the truncation with a null record always succeeds
and erases the configuration; `get_truncation` on a handle with no
truncation configured returns false and leaves the caller's record
untouched; on a handle with a configured policy it returns true and writes
all four fields (direction, strategy, max length, stride). -/
theorem c8_get_truncation (t : Tokenizer) (rec : TruncationParams) :
    set_truncation (some t) none = POr.ok (none, some { t with truncation := none })
    ∧ (t.truncation = none → get_truncation (some t) rec = POr.ok (false, rec))
    ∧ (∀ p, t.truncation = some p → get_truncation (some t) rec = POr.ok (true,
        { direction := truncationDirectionCode p.direction
          strategy := truncationStrategyCode p.strategy
          max_length := p.max_length % 4294967296
          stride := p.stride % 4294967296 })) := by
  refine ⟨rfl, fun h => ?_, fun p h => ?_⟩
  · simp only [get_truncation, convert_to_tokenizer_ref, h]
  · simp only [get_truncation, convert_to_tokenizer_ref, h]

/-- Claim C8, witness: on the unconfigured fixture engine `get_truncation`
returns false with the record untouched, and on the configured fixture it
returns true with all four fields written. -/
theorem c8_witness :
    get_truncation (some tokFixture) recZero = POr.ok (false, recZero)
    ∧ get_truncation (some tokTrunc) recZero = POr.ok (true,
        { direction := 1, strategy := 1, max_length := 128, stride := 10 }) :=
  ⟨(c8_get_truncation tokFixture recZero).2.1 rfl,
   (c8_get_truncation tokTrunc recZero).2.2
     { direction := .right, strategy := .onlyFirst, max_length := 128, stride := 10 } rfl⟩

/-- Claim C9, counterexample.  On an engine whose vocabulary size is 5 with
added tokens and 3 without, the exported `vocab_size` does not return the
size the specified flag-taking signature requires for the flag value
false: the function has no such parameter and always includes added
tokens. -/
theorem c9_counterexample :
    ¬ vocab_size (some tokVocab) = POr.ok (vocab_size_as_specified tokVocab false) := by
  decide

/-- Claim C9, amended.  `vocab_size` takes only the handle: for every valid
handle it never fails (no panic) and returns the engine vocabulary size
with added tokens always included — it agrees with the specified
flag-taking behaviour exactly at flag = true.  It is read-only by its
type: the embedding returns no modified engine state and the source takes
a shared reference. -/
theorem c9_vocab_size_hardcodes_added (t : Tokenizer) :
    vocab_size (some t) = POr.ok (vocab_size_as_specified t true) := rfl

/-- Claim C10.  For bytes that are not valid UTF-8: the lossy conversion
used by `encode_batch` replaces invalid sequences so the converted text
contains the U+FFFD replacement character; single `encode` does not
perform this conversion (it panics on the same bytes); and a batch
containing those bytes reports no error for that input — with token texts
not requested and the engine succeeding on the lossily converted texts,
the whole batch succeeds with one buffer per encoding. -/
theorem c10_lossy_batch (bs : List Nat) (h : utf8Decode bs = none) :
    0xFFFD ∈ utf8Lossy bs
    ∧ (∀ t opts a, encode (some t) bs opts a = .panicked "invalid utf-8 sequence")
    ∧ (∀ t msgs opts a encs, bs ∈ msgs → opts.with_offsets_char_mode = false →
        opts.return_tokens = false →
        t.encodeBatchFn (msgs.map utf8Lossy) opts.add_special_tokens = .ok encs →
        ∃ bufs a', encode_batch (some t) msgs opts a =
          ({ len := bufs.length % 4294967296, encoded := some bufs, error := none }, a')
          ∧ bufs.length = encs.length) := by
  refine ⟨utf8Lossy_mem_of_decode_none bs h, ?_, ?_⟩
  · intro t opts a
    simp only [encode, encode_impl, convert_to_tokenizer_ref, h]
  · intro t msgs opts a encs hmem hchar htoks hengine
    obtain ⟨bufs, a', hl, hlen⟩ := batchLoop_ok_of_no_tokens opts htoks encs
      (allocIfPos a msgs.length).2 []
    refine ⟨bufs, ?_, ?_, by simpa using hlen⟩
    · exact if bufs.length = 0 then freeOpt a' (allocIfPos a msgs.length).1 else a'
    · simp only [encode_batch, encode_batch_impl, convert_to_tokenizer_ref, hchar,
        Bool.false_eq_true, if_false, hengine, hl, result_to_encode_results]

/-- Claim C10, witness at the invalid byte 255: the lossy text contains
U+FFFD, single encode panics, and a one-element batch with that input
succeeds on the fixture engine with exactly one buffer. -/
theorem c10_witness :
    0xFFFD ∈ utf8Lossy [255]
    ∧ encode (some tokFixture) [255] optsNone Alloc.empty =
        .panicked "invalid utf-8 sequence"
    ∧ ∃ bufs a', encode_batch (some tokFixture) [[255]] optsNone Alloc.empty =
        ({ len := bufs.length % 4294967296, encoded := some bufs, error := none }, a')
        ∧ bufs.length = ([encFixture] : List Encoding).length :=
  ⟨(c10_lossy_batch [255] rfl).1,
   (c10_lossy_batch [255] rfl).2.1 tokFixture optsNone Alloc.empty,
   (c10_lossy_batch [255] rfl).2.2 tokFixture [[255]] optsNone Alloc.empty [encFixture]
     (by decide) rfl rfl rfl⟩

end Tokenizers
